import Mathlib

/-
  Verification development for the distcache repository.

  Shallow embedding of the two source files:
    - src/health_server.py  (HealthServer: heartbeat probing, health reporting)
    - src/server.py         (CacheServer: routing, stats, node registry, ring)

  Modules `src/configure.py`, `src/utils.py` and `src/consistenthashing.py`
  are not part of the sources; where their behaviour decides a property they
  are modelled from the spec (each such definition says so in its doc string).
-/

namespace DistCache

/- ## Heartbeat probing (HealthServer.probe_health)

  `ACK_HEADER = 3` is hardcoded in `HealthServer.__init__`; `ACK_MESSAGE` is
  the three bytes of the string ACK in the configured text format
  (UTF-8/ASCII).  The dead threshold `DEAD_THRESH` comes from configuration
  and is kept as a parameter `thresh` below. -/

def ACK_HEADER : Nat := 3

def ACK_MESSAGE : List Nat := [65, 67, 75]

/-- Outcome of `client_socket.send(ACK_MESSAGE)`: either the call raises
  (`error`), or it returns the number of bytes transmitted. -/
inductive SendResult where
  | error : SendResult
  | sent : Nat → SendResult
  deriving DecidableEq, Repr

/-- Outcome of `client_socket.recv(ACK_HEADER)`: either the call raises
  (timeout or other socket error), or it returns the received bytes
  (the empty list models an empty `bytes` reply, i.e. EOF). -/
inductive RecvResult where
  | timeout : RecvResult
  | reply : List Nat → RecvResult
  deriving DecidableEq, Repr

/-- The environment's behaviour during one probe round: what the send does
  and, when a receive happens, what it yields.  The `recv` component is
  consulted only on the code path that actually calls `recv`. -/
structure ProbeEvent where
  send : SendResult
  recv : RecvResult
  deriving DecidableEq, Repr

/-- Result of one iteration of the `while True` body in `probe_health`:
  either control returns to the top of the loop with the new value of
  `no_beat_count`, or the loop is exited (`break`) with that value. -/
inductive RoundResult where
  | loop : Nat → RoundResult
  | exitLoop : Nat → RoundResult
  deriving DecidableEq, Repr

/-- The trailing `if no_beat_count == self.DEAD_THRESH: break` check of the
  loop body (`continue` on an exact acknowledgment skips it). -/
def checkThresh (thresh cnt : Nat) : RoundResult :=
  if cnt = thresh then RoundResult.exitLoop cnt else RoundResult.loop cnt

/-- One iteration of the `while True` body of `HealthServer.probe_health`,
  transcribed branch by branch from the source:

  - the send raises → `except` clause: `no_beat_count += 1`, then threshold check;
  - `bytes_sent != ACK_HEADER` → `break`;
  - the recv raises → `except` clause: `no_beat_count += 1`, then threshold check;
  - non-empty reply equal to `ACK_MESSAGE` → `no_beat_count = 0`, `continue`
    (skipping the threshold check);
  - non-empty reply different from `ACK_MESSAGE` → `no_beat_count += 1`,
    then threshold check;
  - empty reply → falls through with `no_beat_count` unchanged, threshold check. -/
def probeRound (thresh cnt : Nat) (e : ProbeEvent) : RoundResult :=
  match e.send with
  | SendResult.error => checkThresh thresh (cnt + 1)
  | SendResult.sent n =>
      if n ≠ ACK_HEADER then RoundResult.exitLoop cnt
      else
        match e.recv with
        | RecvResult.timeout => checkThresh thresh (cnt + 1)
        | RecvResult.reply r =>
            if r ≠ [] then
              if r = ACK_MESSAGE then RoundResult.loop 0
              else checkThresh thresh (cnt + 1)
            else checkThresh thresh cnt

/-- State of the probing loop after a finite prefix of environment events:
  still probing with a counter value, or exited with the final counter. -/
inductive ProbeStatus where
  | probing : Nat → ProbeStatus
  | exited : Nat → ProbeStatus
  deriving DecidableEq, Repr

/-- Run the probing loop over a finite list of environment events. -/
def runProbe (thresh : Nat) : Nat → List ProbeEvent → ProbeStatus
  | cnt, [] => ProbeStatus.probing cnt
  | cnt, e :: es =>
      match probeRound thresh cnt e with
      | RoundResult.loop c => runProbe thresh c es
      | RoundResult.exitLoop c => ProbeStatus.exited c

/-- The two client lists held by `HealthServer` (`self.clients` and
  `self.unhealthy_clients`), as lists of addresses. -/
structure HealthLists (A : Type) where
  clients : List A
  unhealthy_clients : List A
  deriving DecidableEq, Repr

/-- Python `list.remove`: deletes the first occurrence of the element,
  raises `ValueError` (here: `none`) when the element is absent. -/
def listRemove {A : Type} [DecidableEq A] (a : A) (l : List A) : Option (List A) :=
  if a ∈ l then some (l.erase a) else none

/-- Overall outcome of `HealthServer.probe_health` on a finite event list. -/
inductive ProbeOutcome (A : Type) where
  | running : Nat → HealthLists A → ProbeOutcome A
  | dead : HealthLists A → ProbeOutcome A
  | removeError : ProbeOutcome A
  deriving DecidableEq, Repr

/-- `HealthServer.probe_health`: appends the client address to
  `self.clients`, runs the probing loop, and on loop exit removes the
  address from `self.clients` (Python `list.remove`) and appends it to
  `self.unhealthy_clients`. -/
def probe_health {A : Type} [DecidableEq A] (thresh : Nat) (addr : A)
    (events : List ProbeEvent) (s : HealthLists A) : ProbeOutcome A :=
  let entry : HealthLists A :=
    { s with clients := s.clients ++ [addr] }
  match runProbe thresh 0 events with
  | ProbeStatus.probing c => ProbeOutcome.running c entry
  | ProbeStatus.exited _ =>
      match listRemove addr entry.clients with
      | none => ProbeOutcome.removeError
      | some cl =>
          ProbeOutcome.dead
            { clients := cl
              unhealthy_clients := entry.unhealthy_clients ++ [addr] }

/-- A probe-round event that the code counts as a miss, i.e. one that
  increments `no_beat_count`: the send raises, or the send transmits the
  full header and then the recv raises, or a non-empty reply arrives that
  differs from `ACK_MESSAGE`. -/
def missEvent (e : ProbeEvent) : Bool :=
  match e.send with
  | SendResult.error => true
  | SendResult.sent n =>
      if n = ACK_HEADER then
        match e.recv with
        | RecvResult.timeout => true
        | RecvResult.reply r => decide (r ≠ [] ∧ r ≠ ACK_MESSAGE)
      else false

/-- A probe-round event in which the full header is transmitted and the
  exact acknowledgment payload is received. -/
def ackEvent (e : ProbeEvent) : Bool :=
  decide (e.send = SendResult.sent ACK_HEADER ∧ e.recv = RecvResult.reply ACK_MESSAGE)

/-- The `no_beat_count` value carried by a round result. -/
def roundCount : RoundResult → Nat
  | RoundResult.loop c => c
  | RoundResult.exitLoop c => c

/- ## Health reporting (HealthServer.report_health) -/

/-- `HealthServer.report_health`: hands the unhealthy list upstream via
  `utils.send_receive_ack` and clears `self.unhealthy_clients` exactly when
  the response is truthy.  `resp` models the truthiness of the response of
  `utils.send_receive_ack` (whose code is not under src/; per its use here,
  the response is false when the upstream sends no acknowledgment).
  Returns the new `self.unhealthy_clients` and the returned response. -/
def report_health {A : Type} (resp : Bool) (unhealthy : List A) : List A × Bool :=
  if resp then ([], resp) else (unhealthy, resp)

/- ## Cache statistics (CacheServer.get / stats) -/

/-- The two counters initialised to 0 in `CacheServer.__init__`. -/
structure CacheStats where
  query_count : Nat
  cache_hits : Nat
  deriving DecidableEq, Repr

/-- `CacheServer.__init__`: `self.cache_hits = 0`, `self.query_count = 0`. -/
def initStats : CacheStats := ⟨0, 0⟩

/-- A Python value as received as the reply of `send_receive_ack`
  (a closed model of the reply shapes the cache deals in: booleans,
  integers, strings, None). -/
inductive PyVal where
  | pyBool : Bool → PyVal
  | pyInt : Int → PyVal
  | pyStr : String → PyVal
  | pyNone : PyVal
  deriving DecidableEq, Repr

/-- Python's `response != False`, as evaluated by
  `self.cache_hits += (response != False)` in `CacheServer.get`.
  In Python, `bool` is a subtype of `int` and `False == 0`, so the
  integer `0` compares equal to `False`; strings and `None` never do. -/
def pyNeFalse : PyVal → Bool
  | PyVal.pyBool b => b
  | PyVal.pyInt n => decide (n ≠ 0)
  | PyVal.pyStr _ => true
  | PyVal.pyNone => true

/-- Modelled from the spec: a reply that indicates a present value, i.e.
  one that is not the miss sentinel `False` (spec: cacheHits is incremented
  "when the reply indicates a present value (not a miss sentinel)"). -/
def specPresent : PyVal → Bool
  | PyVal.pyBool false => false
  | _ => true

/-- One completed public cache operation, tagged with the reply the
  operation received where the reply matters for the statistics. -/
inductive CacheOp where
  | op_get : PyVal → CacheOp
  | op_set : String → PyVal → CacheOp
  | op_delete : String → CacheOp
  | op_add : String → Int → CacheOp
  | op_increment : String → CacheOp
  | op_decrement : String → CacheOp
  | op_stats : CacheOp
  deriving DecidableEq, Repr

/-- Effect of one completed public operation on the two counters:
  `CacheServer.get` executes `self.query_count += 1` and
  `self.cache_hits += (response != False)`; `set`, `delete`, `add`,
  `increment`, `decrement` and `stats` do not touch either counter. -/
def opStep : CacheOp → CacheStats → CacheStats
  | CacheOp.op_get r, s =>
      { query_count := s.query_count + 1
        cache_hits := s.cache_hits + (if pyNeFalse r then 1 else 0) }
  | _, s => s

/-- Run a finite sequence of completed public operations. -/
def runOps (ops : List CacheOp) (s : CacheStats) : CacheStats :=
  List.foldl (fun t op => opStep op t) s ops

/-- Is the operation a `get`? -/
def isGet : CacheOp → Bool
  | CacheOp.op_get _ => true
  | _ => false

/-- Number of completed `get` operations in the sequence. -/
def countGets : List CacheOp → Nat
  | [] => 0
  | CacheOp.op_get _ :: rest => countGets rest + 1
  | _ :: rest => countGets rest

/-- Number of completed `get` operations whose reply is not Python-equal
  to `False` (the replies `CacheServer.get` counts as hits). -/
def countHits : List CacheOp → Nat
  | [] => 0
  | CacheOp.op_get r :: rest => countHits rest + (if pyNeFalse r then 1 else 0)
  | _ :: rest => countHits rest

/-- Python's true division `a / b` on the counters: raises
  `ZeroDivisionError` (here: `none`) when the divisor is 0. -/
def pyTrueDiv (a b : Nat) : Option Rat :=
  if b = 0 then none else some ((a : Rat) / (b : Rat))

/-- The hit-rate expression `self.cache_hits / self.query_count` evaluated
  by `CacheServer.stats` while formatting its output; the source guards it
  with nothing. -/
def stats (s : CacheStats) : Option Rat :=
  pyTrueDiv s.cache_hits s.query_count

/- ## Commands (CacheServer.increment / decrement / add) -/

/-- The command tuples `CacheServer` sends over the wire:
  `("get", key)`, `("set", key, value)`, `("del", key)`,
  `("add", key, diff)`. -/
inductive Command where
  | cmd_get : String → Command
  | cmd_set : String → PyVal → Command
  | cmd_del : String → Command
  | cmd_add : String → Int → Command
  deriving DecidableEq, Repr

/-- `CacheServer.add`: sends `("add", key, diff)` to the node owning the
  key and returns the response.  `oracle` models what
  `utils.send_receive_ack` yields for a sent command; the result is the
  pair (command sent, response returned). -/
def add (key : String) (diff : Int) (oracle : Command → PyVal) : Command × PyVal :=
  (Command.cmd_add key diff, oracle (Command.cmd_add key diff))

/-- `CacheServer.increment`: `return self.add(key, 1)`. -/
def increment (key : String) (oracle : Command → PyVal) : Command × PyVal :=
  add key 1 oracle

/-- `CacheServer.decrement`: `return self.add(key, -1)`. -/
def decrement (key : String) (oracle : Command → PyVal) : Command × PyVal :=
  add key (-1) oracle

/- ## Node registry and ring (CacheServer.spawn / _delist_unavailable_server) -/

/-- An accepted backend connection: the socket and the peer address,
  both modelled as plain naturals. -/
structure Conn where
  sock : Nat
  addr : Nat
  deriving DecidableEq, Repr

/-- Modelled from the spec: the ring of `ConsistentHashing`
  (src/consistenthashing.py is not under src/) as its set of positions,
  each a pair (hash value, node).  Nodes are identified by the socket
  they were added with, as in `self.ring.add_node(client_socket, ...)`. -/
abbrev Ring : Type := List (Nat × Nat)

/-- Modelled from the spec: `ConsistentHashing.add_node(node, R)` inserts
  `R` positions into the position set, one per virtual replica index
  `i in [0, R)`, each keyed by hashing the node together with `i`
  (`h` is the hash function, kept abstract). -/
def add_node (h : Nat → Nat → Nat) (ring : Ring) (node : Nat) (r : Nat) : Ring :=
  ring ++ (List.range r).map (fun i => (h node i, node))

/-- Modelled from the spec: `ConsistentHashing.remove_node(node)` removes
  all positions previously inserted for this node. -/
def remove_node (ring : Ring) (node : Nat) : Ring :=
  ring.filter (fun p => p.2 ≠ node)

/-- The router state the claims touch: `self.clients` (the node registry,
  a dict from assigned id to (socket, address)) and the ring positions. -/
structure RouterState where
  clients : List (Nat × Conn)
  ring : Ring

/-- `CacheServer.spawn`: accepts one connection from the pending queue
  (blocking — `none` — when there is none), assigns
  `client_id = len(self.clients)`, stores
  `self.clients[client_id] = (socket, address)`, sends the assigned id to
  the backend via `utils.send_message` (modelled as the list of messages
  sent over the new connection), adds the node to the ring with
  `self.num_virtual_replicas` replicas, and then leaves the `while True`
  loop via its unconditional `break`.  Returns the new state, the messages
  sent to the new backend, and the still-pending connections. -/
def spawn (h : Nat → Nat → Nat) (numReplicas : Nat) (s : RouterState)
    (pending : List Conn) : Option (RouterState × List Nat × List Conn) :=
  match pending with
  | [] => none
  | c :: rest =>
      let client_id := s.clients.length
      some
        ({ clients := s.clients ++ [(client_id, c)]
           ring := add_node h s.ring c.sock numReplicas },
         [client_id], rest)

/-- `CacheServer._delist_unavailable_server`: its body is exactly
  `self.ring.remove_node(client_socket)`. -/
def delist_unavailable_server (s : RouterState) (sock : Nat) : RouterState :=
  { s with ring := remove_node s.ring sock }

/- ## Helper lemmas -/

theorem roundCount_checkThresh (thresh c : Nat) : roundCount (checkThresh thresh c) = c := by
  unfold checkThresh
  split <;> rfl

theorem missEvent_round (thresh c : Nat) (e : ProbeEvent) (h : missEvent e = true) :
    probeRound thresh c e = checkThresh thresh (c + 1) := by
  obtain ⟨se, re⟩ := e
  cases se with
  | error => rfl
  | sent n =>
      by_cases hn : n = ACK_HEADER
      · subst hn
        cases re with
        | timeout => simp [probeRound]
        | reply r =>
            simp [missEvent] at h
            simp [probeRound, h.1, h.2]
      · simp [missEvent, hn] at h

theorem ackEvent_round (thresh c : Nat) (e : ProbeEvent) (h : ackEvent e = true) :
    probeRound thresh c e = RoundResult.loop 0 := by
  rw [ackEvent, decide_eq_true_eq] at h
  obtain ⟨se, re⟩ := e
  obtain ⟨h1, h2⟩ := h
  simp only at h1 h2
  subst h1
  subst h2
  simp [probeRound, ACK_MESSAGE]

theorem runProbe_all_miss (thresh : Nat) (events : List ProbeEvent) (c : Nat)
    (hm : ∀ e ∈ events, missEvent e = true) (hlt : c < thresh)
    (hlen : c + events.length = thresh) :
    runProbe thresh c events = ProbeStatus.exited thresh := by
  induction events generalizing c with
  | nil => simp at hlen; omega
  | cons e es ih =>
      have he : missEvent e = true := hm e (List.mem_cons_self e es)
      show (match probeRound thresh c e with
            | RoundResult.loop c => runProbe thresh c es
            | RoundResult.exitLoop c => ProbeStatus.exited c) = ProbeStatus.exited thresh
      rw [missEvent_round thresh c e he]
      unfold checkThresh
      by_cases hc : c + 1 = thresh
      · rw [if_pos hc, hc]
      · rw [if_neg hc]
        exact ih (c + 1) (fun x hx => hm x (List.mem_cons_of_mem e hx)) (by omega)
          (by simp at hlen ⊢; omega)

theorem runOps_counts (ops : List CacheOp) (s : CacheStats) :
    (runOps ops s).query_count = s.query_count + countGets ops ∧
    (runOps ops s).cache_hits = s.cache_hits + countHits ops := by
  induction ops generalizing s with
  | nil => simp [runOps, countGets, countHits]
  | cons op rest ih =>
      have hstep : runOps (op :: rest) s = runOps rest (opStep op s) := rfl
      rw [hstep]
      obtain ⟨ihq, ihh⟩ := ih (opStep op s)
      cases op with
      | op_get r =>
          refine ⟨?_, ?_⟩
          · rw [ihq]; simp [opStep, countGets]; omega
          · rw [ihh]; simp [opStep, countHits]; omega
      | op_set k v => exact ⟨by rw [ihq]; rfl, by rw [ihh]; rfl⟩
      | op_delete k => exact ⟨by rw [ihq]; rfl, by rw [ihh]; rfl⟩
      | op_add k d => exact ⟨by rw [ihq]; rfl, by rw [ihh]; rfl⟩
      | op_increment k => exact ⟨by rw [ihq]; rfl, by rw [ihh]; rfl⟩
      | op_decrement k => exact ⟨by rw [ihq]; rfl, by rw [ihh]; rfl⟩
      | op_stats => exact ⟨by rw [ihq]; rfl, by rw [ihh]; rfl⟩

/- ## Claim theorems -/

/-- C1: if `DEAD_THRESHOLD` consecutive probe rounds each end in a miss
  (an event that increments `no_beat_count`), starting from counter 0, the
  probing loop exits, removes the node's address from the active client
  list and appends it to the unhealthy list; and any probe round that
  receives the exact acknowledgment resets the consecutive-miss counter to
  0 and continues the loop (the node stays in Probing). -/
theorem C1_dead_after_threshold_misses {A : Type} [DecidableEq A]
    (thresh : Nat) (addr : A) (events : List ProbeEvent) (s : HealthLists A)
    (hth : 0 < thresh) (hlen : events.length = thresh)
    (hmiss : ∀ e ∈ events, missEvent e = true) (haddr : addr ∉ s.clients) :
    probe_health thresh addr events s =
      ProbeOutcome.dead ⟨s.clients, s.unhealthy_clients ++ [addr]⟩ ∧
    ∀ (c : Nat) (e : ProbeEvent), ackEvent e = true →
      probeRound thresh c e = RoundResult.loop 0 := by
  constructor
  · unfold probe_health
    rw [runProbe_all_miss thresh events 0 hmiss hth (by omega)]
    have hmem : addr ∈ s.clients ++ [addr] := by simp
    simp only [listRemove, if_pos hmem]
    rw [List.erase_append_right _ haddr]
    simp
  · intro c e he
    exact ackEvent_round thresh c e he

theorem C1_witness :
    probe_health 3 (0 : Nat)
      [⟨SendResult.error, RecvResult.timeout⟩, ⟨SendResult.error, RecvResult.timeout⟩,
       ⟨SendResult.error, RecvResult.timeout⟩] ⟨[], []⟩ =
      ProbeOutcome.dead ⟨[], [0]⟩ :=
  (C1_dead_after_threshold_misses 3 0
    [⟨SendResult.error, RecvResult.timeout⟩, ⟨SendResult.error, RecvResult.timeout⟩,
     ⟨SendResult.error, RecvResult.timeout⟩] ⟨[], []⟩
    (by decide) (by decide) (by decide) (by decide)).1

/-- C5 counterexample: an empty reply arrives within the timeout and its
  bytes differ from the expected 3-byte acknowledgment payload, yet the
  consecutive-miss counter is left at 0 (the round loops without
  incrementing), contradicting the claim that any reply whose bytes differ
  from the acknowledgment increments the counter by 1. -/
theorem C5_counterexample :
    probeRound 3 0 ⟨SendResult.sent 3, RecvResult.reply []⟩ = RoundResult.loop 0 ∧
    ([] : List Nat) ≠ ACK_MESSAGE := by
  exact ⟨rfl, by decide⟩

/-- C5 amended: in every probe round the consecutive-miss counter becomes
  `c + 1` exactly when the round is a counted miss (the send raises, the
  receive times out, or a NON-EMPTY reply differs from the expected
  acknowledgment payload), becomes `0` on receiving the exact
  acknowledgment, and is left unchanged otherwise — in particular an empty
  reply, although its bytes differ from the acknowledgment, does not
  increment the counter. -/
theorem C5_miss_counter_update (thresh c : Nat) (e : ProbeEvent) :
    roundCount (probeRound thresh c e) =
      if missEvent e then c + 1 else if ackEvent e then 0 else c := by
  obtain ⟨se, re⟩ := e
  cases se with
  | error => simp [probeRound, missEvent, roundCount_checkThresh]
  | sent n =>
      by_cases hn : n = ACK_HEADER
      · subst hn
        cases re with
        | timeout => simp [probeRound, missEvent, roundCount_checkThresh]
        | reply r =>
            by_cases hr1 : r = []
            · subst hr1
              simp [probeRound, missEvent, ackEvent, ACK_MESSAGE, roundCount_checkThresh]
            · by_cases hr2 : r = ACK_MESSAGE
              · subst hr2
                simp [probeRound, missEvent, ackEvent, ACK_MESSAGE, roundCount]
              · simp [probeRound, missEvent, ackEvent, hr1, hr2, roundCount_checkThresh]
      · simp [probeRound, missEvent, ackEvent, hn, roundCount]

/-- C6 counterexample: a single probe round in which the send transmits
  fewer than the expected bytes (2 of 3) makes the loop exit at once and
  declare the node dead (its address moves to the unhealthy list), instead
  of incrementing the consecutive-miss counter and continuing toward the
  threshold as the claim states. -/
theorem C6_counterexample :
    probe_health 3 (0 : Nat) [⟨SendResult.sent 2, RecvResult.reply []⟩] ⟨[], []⟩ =
      ProbeOutcome.dead ⟨[], [0]⟩ ∧
    (2 : Nat) ≠ ACK_HEADER := by
  exact ⟨rfl, by decide⟩

/-- C6 amended: a send that raises (connection closed) is treated as one
  miss — the counter is incremented by 1 and the loop continues toward the
  threshold via the usual threshold check — while a send that transmits
  fewer than the expected `ACK_HEADER` bytes without raising makes the
  loop exit immediately (the node is declared dead on that single send
  failure) with the counter unchanged. -/
theorem C6_send_failure_behaviour (thresh c : Nat) (r : RecvResult) :
    probeRound thresh c ⟨SendResult.error, r⟩ = checkThresh thresh (c + 1) ∧
    ∀ n : Nat, n ≠ ACK_HEADER →
      probeRound thresh c ⟨SendResult.sent n, r⟩ = RoundResult.exitLoop c := by
  constructor
  · rfl
  · intro n hn
    simp [probeRound, hn]

theorem C6_witness :
    probeRound 3 0 ⟨SendResult.error, RecvResult.timeout⟩ = checkThresh 3 1 ∧
    probeRound 3 0 ⟨SendResult.sent 2, RecvResult.timeout⟩ = RoundResult.exitLoop 0 :=
  ⟨(C6_send_failure_behaviour 3 0 RecvResult.timeout).1,
   (C6_send_failure_behaviour 3 0 RecvResult.timeout).2 2 (by decide)⟩

theorem countHits_le_countGets (ops : List CacheOp) : countHits ops ≤ countGets ops := by
  induction ops with
  | nil => simp [countGets, countHits]
  | cons op rest ih =>
      cases op with
      | op_get r =>
          simp only [countGets, countHits]
          split <;> omega
      | op_set k v => simpa [countGets, countHits] using ih
      | op_delete k => simpa [countGets, countHits] using ih
      | op_add k d => simpa [countGets, countHits] using ih
      | op_increment k => simpa [countGets, countHits] using ih
      | op_decrement k => simpa [countGets, countHits] using ih
      | op_stats => simpa [countGets, countHits] using ih

/-- C2 counterexample: one completed `get` whose reply is the integer `0` —
  a present value, not the miss sentinel `False` — leaves `cache_hits` at
  0 while `query_count` becomes 1, because the code tests
  `response != False` and in Python `0 == False`; so after `N = 1` gets of
  which `H = 1` returned a present value, `cacheHits = 0 ≠ H`. -/
theorem C2_counterexample :
    runOps [CacheOp.op_get (PyVal.pyInt 0)] initStats = ⟨1, 0⟩ ∧
    specPresent (PyVal.pyInt 0) = true := by
  exact ⟨rfl, rfl⟩

/-- C2 amended: after a sequence of completed public calls,
  `query_count` equals the number of completed `get` calls and
  `cache_hits` equals the number of `get` calls whose reply is not
  Python-equal to `False` (so a present value equal to `0` is counted as a
  miss); every completed `set`, `delete`, `add`, `increment`, `decrement`
  and `stats` call leaves both counters unchanged. -/
theorem C2_stats_accounting (ops : List CacheOp) :
    (runOps ops initStats).query_count = countGets ops ∧
    (runOps ops initStats).cache_hits = countHits ops ∧
    ∀ (op : CacheOp) (s : CacheStats), isGet op = false → opStep op s = s := by
  obtain ⟨hq, hh⟩ := runOps_counts ops initStats
  refine ⟨by simpa [initStats] using hq, by simpa [initStats] using hh, ?_⟩
  intro op s hop
  cases op with
  | op_get r => simp [isGet] at hop
  | op_set k v => rfl
  | op_delete k => rfl
  | op_add k d => rfl
  | op_increment k => rfl
  | op_decrement k => rfl
  | op_stats => rfl

theorem C2_witness :
    (runOps [CacheOp.op_get (PyVal.pyInt 1), CacheOp.op_set "k" PyVal.pyNone]
        initStats).query_count = 1 ∧
    opStep (CacheOp.op_delete "k") ⟨5, 3⟩ = ⟨5, 3⟩ := by
  have h := C2_stats_accounting
    [CacheOp.op_get (PyVal.pyInt 1), CacheOp.op_set "k" PyVal.pyNone]
  exact ⟨by rw [h.1]; rfl, h.2.2 (CacheOp.op_delete "k") ⟨5, 3⟩ rfl⟩

/-- C7: the claim is right and the code is wrong — `CacheServer.stats`
  evaluates `self.cache_hits / self.query_count` with no guard, so on the
  initial state (`query_count = 0`) the division raises
  `ZeroDivisionError` (modelled as `none`) instead of reporting 0 or an
  explicit undefined value. -/
theorem C7_stats_unguarded_division : stats initStats = none := rfl

/-- C9: `increment key` is exactly `add key 1` and `decrement key` is
  exactly `add key (-1)`: for every key and every behaviour of the wire,
  they send the same `("add", key, ±1)` command and return the same
  response as the corresponding `add` call. -/
theorem C9_increment_decrement_are_add (key : String) (oracle : Command → PyVal) :
    increment key oracle = add key 1 oracle ∧
    decrement key oracle = add key (-1) oracle ∧
    (increment key oracle).1 = Command.cmd_add key 1 ∧
    (decrement key oracle).1 = Command.cmd_add key (-1) :=
  ⟨rfl, rfl, rfl, rfl⟩

/-- C10: starting from the initial state where both counters are 0, every
  completed public cache operation preserves `cache_hits ≤ query_count`
  (both counters are naturals, hence ≥ 0), neither counter ever decreases
  across a step, and along every operation sequence from the initial state
  the invariant holds. -/
theorem C10_counters_invariant :
    (∀ (op : CacheOp) (s : CacheStats), s.cache_hits ≤ s.query_count →
        (opStep op s).cache_hits ≤ (opStep op s).query_count) ∧
    (∀ (op : CacheOp) (s : CacheStats),
        s.query_count ≤ (opStep op s).query_count ∧
        s.cache_hits ≤ (opStep op s).cache_hits) ∧
    (∀ ops : List CacheOp,
        (runOps ops initStats).cache_hits ≤ (runOps ops initStats).query_count) := by
  refine ⟨?_, ?_, ?_⟩
  · intro op s hs
    cases op with
    | op_get r => simp only [opStep]; split <;> omega
    | op_set k v => exact hs
    | op_delete k => exact hs
    | op_add k d => exact hs
    | op_increment k => exact hs
    | op_decrement k => exact hs
    | op_stats => exact hs
  · intro op s
    cases op with
    | op_get r => constructor <;> simp [opStep]
    | op_set k v => exact ⟨le_refl _, le_refl _⟩
    | op_delete k => exact ⟨le_refl _, le_refl _⟩
    | op_add k d => exact ⟨le_refl _, le_refl _⟩
    | op_increment k => exact ⟨le_refl _, le_refl _⟩
    | op_decrement k => exact ⟨le_refl _, le_refl _⟩
    | op_stats => exact ⟨le_refl _, le_refl _⟩
  · intro ops
    obtain ⟨hq, hh⟩ := runOps_counts ops initStats
    rw [hq, hh]
    simpa [initStats] using countHits_le_countGets ops

theorem C10_witness :
    (opStep (CacheOp.op_get PyVal.pyNone) ⟨1, 1⟩).cache_hits ≤
      (opStep (CacheOp.op_get PyVal.pyNone) ⟨1, 1⟩).query_count :=
  C10_counters_invariant.1 (CacheOp.op_get PyVal.pyNone) ⟨1, 1⟩ (by decide)

/-- C3: under the registry invariant that the previously assigned ids are
  exactly `0 .. len-1` (which holds along any run, since only `spawn`
  touches the registry) and with the new node's socket not yet in the
  ring, `spawn` on a non-empty pending queue accepts exactly the first
  connection and terminates leaving the rest pending, assigns
  `client_id = len(self.clients)`, stores the connection and address under
  that id, sends exactly the assigned id to the backend as the only
  message over the new connection, and inserts the node into the ring; the
  assigned id is greater than every previously assigned id, and the ring
  gains exactly `numReplicas` positions for the node. -/
theorem C3_spawn_registers_single_backend (h : Nat → Nat → Nat) (numReplicas : Nat)
    (s : RouterState) (c : Conn) (rest : List Conn)
    (hids : s.clients.map Prod.fst = List.range s.clients.length)
    (hfresh : ∀ p ∈ s.ring, p.2 ≠ c.sock) :
    spawn h numReplicas s (c :: rest) =
      some ({ clients := s.clients ++ [(s.clients.length, c)]
              ring := add_node h s.ring c.sock numReplicas },
            [s.clients.length], rest) ∧
    (∀ p ∈ s.clients, p.1 < s.clients.length) ∧
    ((add_node h s.ring c.sock numReplicas).filter
        (fun p => p.2 == c.sock)).length = numReplicas := by
  refine ⟨rfl, ?_, ?_⟩
  · intro p hp
    have hmem : p.1 ∈ s.clients.map Prod.fst := List.mem_map_of_mem Prod.fst hp
    rw [hids] at hmem
    exact List.mem_range.mp hmem
  · unfold add_node
    rw [List.filter_append]
    have h1 : s.ring.filter (fun p => p.2 == c.sock) = [] := by
      rw [List.filter_eq_nil_iff]
      intro p hp
      simpa using hfresh p hp
    have h2 : ((List.range numReplicas).map (fun i => (h c.sock i, c.sock))).filter
        (fun p => p.2 == c.sock) =
        (List.range numReplicas).map (fun i => (h c.sock i, c.sock)) := by
      rw [List.filter_eq_self]
      intro p hp
      obtain ⟨i, _, hip⟩ := List.mem_map.mp hp
      rw [← hip]
      simp
    rw [h1, h2]
    simp

theorem C3_witness :
    spawn (fun a b => a + b) 2 ⟨[], []⟩ [⟨7, 9⟩] =
      some (⟨[(0, ⟨7, 9⟩)], [(7, 7), (8, 7)]⟩, [0], []) :=
  (C3_spawn_registers_single_backend (fun a b => a + b) 2 ⟨[], []⟩ ⟨7, 9⟩ []
    rfl (by intro p hp; simp at hp)).1

/-- C4 counterexample: for a registered node (id 0, socket 7) whose
  positions are in the ring, the router's delisting removes the positions
  from the ring but leaves the Node Registry mapping untouched — the entry
  for id 0 is still present afterwards, contradicting the claim that the
  node is removed from both. -/
theorem C4_counterexample :
    delist_unavailable_server ⟨[(0, ⟨7, 9⟩)], [(70, 7), (71, 7)]⟩ 7 =
      ⟨[(0, ⟨7, 9⟩)], []⟩ ∧
    (0, Conn.mk 7 9) ∈
      (delist_unavailable_server ⟨[(0, ⟨7, 9⟩)], [(70, 7), (71, 7)]⟩ 7).clients := by
  exact ⟨rfl, by simp [delist_unavailable_server]⟩

/-- C4 amended: the router's delisting of an unavailable server removes
  every position of the node from the Ring's position set but leaves the
  Node Registry's id-to-(connection, address) mapping unchanged. -/
theorem C4_delist_removes_ring_only (s : RouterState) (sock : Nat) :
    (delist_unavailable_server s sock).clients = s.clients ∧
    ∀ p ∈ (delist_unavailable_server s sock).ring, p.2 ≠ sock := by
  refine ⟨rfl, ?_⟩
  intro p hp
  have hp2 := List.of_mem_filter hp
  simpa using hp2

theorem C4_witness :
    (delist_unavailable_server ⟨[(0, ⟨7, 9⟩)], [(70, 7), (71, 7)]⟩ 8).clients =
      [(0, Conn.mk 7 9)] ∧
    (70, 7).2 ≠ 8 :=
  ⟨(C4_delist_removes_ring_only ⟨[(0, ⟨7, 9⟩)], [(70, 7), (71, 7)]⟩ 8).1,
   (C4_delist_removes_ring_only ⟨[(0, ⟨7, 9⟩)], [(70, 7), (71, 7)]⟩ 8).2
     (70, 7) (by decide)⟩

/-- C8: `report_health` clears the local unhealthy-node list exactly when
  the upstream acknowledgment is positive; when delivery fails (the
  response is false), the unhealthy list is returned exactly as it was, so
  no entry present before the attempt is dropped without having been
  acknowledged. -/
theorem C8_report_health_clears_only_on_ack {A : Type} (resp : Bool) (u : List A) :
    (resp = true → report_health resp u = ([], true)) ∧
    (resp = false → report_health resp u = (u, false)) := by
  constructor <;> intro hr <;> subst hr <;> rfl

theorem C8_witness :
    report_health true [1, 2] = (([] : List Nat), true) ∧
    report_health false [1, 2] = ([1, 2], false) :=
  ⟨(C8_report_health_clears_only_on_ack true [1, 2]).1 rfl,
   (C8_report_health_clears_only_on_ack false [1, 2]).2 rfl⟩

end DistCache
